/-
Verification of the Nova Dynamics bot server core (src/index.js and the
server variant embedded in src/new-client.js) against its specification.

The JavaScript source is shallowly embedded: pure functions become Lean
functions over `String`, `List` and an inductive model `JVal` of JSON
values; the stateful KB cache becomes explicit state passing; the remote
completion calls become an oracle of attempt outcomes.  Modelling notes:

* `String.normalize("NFKD")` is modelled as the identity function; every
  concrete string this development evaluates on is ASCII, where NFKD is
  the identity.  Universally quantified theorems use the tokenizer as a
  black box and do not depend on this.
* JavaScript `toLowerCase` is modelled by `Char.toLower` (ASCII case
  mapping); all concrete inputs are ASCII.
* `String.prototype.slice(0, n)` is modelled by `String.take n`
  (code points instead of UTF-16 units; equal on the strings used here).
* JSON objects are association lists with distinct keys (JSON.parse keeps
  one value per key); property lookup is `List.lookup`-style first match.
* `Array.prototype.sort` with comparator `(a,b) => b._score - a._score`
  is, per ES2019, a stable sort by descending `_score`; any stable sort
  realising that preorder produces the same output list, so it is
  modelled by `List.insertionSort` with relation `b.score ≤ a.score`
  (Mathlib's `orderedInsert` places a later element after earlier
  elements with equal score, exactly the stable behaviour).
-/
import Mathlib

namespace NovaBot

/-! ## Tokenizer (src/index.js `tok`, src/new-client.js `tokenize`) -/

/-- The mixed Norwegian/English stop-word set `STOP` from the source. -/
def STOP : List String :=
  ["og","er","en","et","to","and","the","i","vi","som","for","med","på",
   "til","du","jeg","we","you","of","a","an","det","de","så","at"]

/-- Characters kept by the regex replace step: the JS class
`[\w\sæøåäöü\-]` (note JS `\w` is ASCII `[A-Za-z0-9_]`). Everything
else is replaced by a space. -/
def keepChar (c : Char) : Bool :=
  c.isAlphanum || c = '_' || c.isWhitespace ||
  c = 'æ' || c = 'ø' || c = 'å' || c = 'ä' || c = 'ö' || c = 'ü' || c = '-'

/-- The `String.normalize("NFKD")` step, modelled as the identity (see header). -/
def nfkd (s : String) : String := s

/-- JavaScript `toLowerCase`, character by character. -/
def jsLower (s : String) : String := String.mk (s.toList.map Char.toLower)

/-- Split a character list at whitespace characters; runs of whitespace
produce empty pieces, which the caller filters away (as the `\s+` split
and the `filter(w => w && ...)` of the source together do). -/
def wsSplit : List Char → List (List Char)
  | [] => [[]]
  | c :: cs =>
    if c.isWhitespace then [] :: wsSplit cs
    else
      match wsSplit cs with
      | [] => [[c]]
      | t :: ts => (c :: t) :: ts

/-- The tokenizer `tok` (called `tokenize` in the variant): lowercase, NFKD, replace characters outside the
kept class with a space, split on whitespace, drop empty tokens and
stop words. -/
def tok (s : String) : List String :=
  let replaced := (nfkd (jsLower s)).toList.map
    (fun c => if keepChar c then c else ' ')
  ((wsSplit replaced).map (fun cs => String.mk cs)).filter
    (fun w => w ≠ "" && !STOP.contains w)

/-! ## KB entries, scoring and ranking -/

/-- A normalized KB entry `{ q, a }`. -/
structure KBEntry where
  q : String
  a : String
deriving DecidableEq, Repr

/-- A ranked entry: the spread `{ ...e, _score }` from `rankFAQ`. -/
structure RankedEntry where
  q : String
  a : String
  score : Nat
deriving DecidableEq, Repr

/-- Source `scoreEntry(entry, qTokens)`: iterate over the query tokens, adding 2
when the token occurs among the entry's question tokens and 1 when it
occurs among the entry's answer tokens. -/
def scoreEntry (entry : KBEntry) (qTokens : List String) : Nat :=
  let tq := tok entry.q
  let ta := tok entry.a
  qTokens.foldl
    (fun s t =>
      s + (if tq.contains t then 2 else 0) + (if ta.contains t then 1 else 0))
    0

/-- The scoring formula as the spec words it (claim C3, for comparison
with `scoreEntry`): 2 times the number of distinct query tokens present
among the entry's question tokens plus 1 times the number of distinct
query tokens present among the entry's answer tokens — "matched as set
membership", so a duplicated token contributes once. -/
def specScore (entry : KBEntry) (qTokens : List String) : Nat :=
  2 * (qTokens.dedup.filter (fun t => (tok entry.q).contains t)).length
    + (qTokens.dedup.filter (fun t => (tok entry.a).contains t)).length

/-- The per-entry map step of `rankFAQ`: `{ ...e, _score: scoreEntry(e, qTok) }`. -/
def scoreKB (question : String) (kb : List KBEntry) : List RankedEntry :=
  let qTok := tok question
  kb.map (fun e => ⟨e.q, e.a, scoreEntry e qTok⟩)

/-- The descending-score preorder used by the sort comparator
`(a,b) => b._score - a._score`. -/
def rankLE (a b : RankedEntry) : Prop := b.score ≤ a.score

instance : DecidableRel rankLE := fun a b => Nat.decLe b.score a.score

instance : IsTotal RankedEntry rankLE := ⟨fun a b => Nat.le_total b.score a.score⟩

instance : IsTrans RankedEntry rankLE := ⟨fun _ _ _ h1 h2 => Nat.le_trans h2 h1⟩

/-- Source `rankFAQ(question, kb)`: score every entry and stable-sort by
descending score (see the header note on `Array.prototype.sort`). -/
def rankFAQ (question : String) (kb : List KBEntry) : List RankedEntry :=
  List.insertionSort rankLE (scoreKB question kb)

/-! ## JSON values (the raw KB records handled by `normalizeKB`) -/

/-- A JSON value, as produced by `JSON.parse`.  Numbers are modelled as
integers (sufficient for every input this development considers). -/
inductive JVal where
  | null : JVal
  | bool (b : Bool) : JVal
  | num (n : Int) : JVal
  | str (s : String) : JVal
  | arr (elems : List JVal) : JVal
  | obj (fields : List (String × JVal)) : JVal

/-- JavaScript truthiness of a JSON value: `null`, `false`, `0` and `""`
are falsy; arrays and objects are always truthy. -/
def truthy : JVal → Bool
  | .null => false
  | .bool b => b
  | .num n => n != 0
  | .str s => s != ""
  | .arr _ => true
  | .obj _ => true

/-- Property access `v[k]`: `none` models JavaScript `undefined`. -/
def getField (v : JVal) (k : String) : Option JVal :=
  match v with
  | .obj fields => fields.lookup k
  | _ => none

/-- Truthiness of a possibly-`undefined` value (`undefined` is falsy). -/
def truthyO : Option JVal → Bool
  | none => false
  | some v => truthy v

/-- Join strings with a separator (`Array.prototype.join` /
`String.intercalate`, stated structurally). -/
def joinSep (sep : String) : List String → String
  | [] => ""
  | x :: xs => xs.foldl (fun acc y => acc ++ sep ++ y) x

mutual

/-- JavaScript `String(v)` on a JSON value: `"null"`, `"true"`/`"false"`,
decimal numbers, strings unchanged, arrays via `join(",")` (with `null`
elements rendered as the empty string), `"[object Object]"` for objects. -/
def jsString : JVal → String
  | .null => "null"
  | .bool b => if b then "true" else "false"
  | .num n => toString n
  | .str s => s
  | .arr xs => joinSep "," (jsElems xs)
  | .obj _ => "[object Object]"

/-- Element rendering of `Array.prototype.join`: `null` becomes `""`. -/
def jsElems : List JVal → List String
  | [] => []
  | .null :: xs => "" :: jsElems xs
  | x :: xs => jsString x :: jsElems xs

end

/-! ## KB normalization (`normalizeKB`) -/

/-- Source `normalizeKB(raw)`: map each record to `{q, a}` when `item && item.q
&& item.a` are truthy, else to `{q: title, a: text}` when `item &&
item.title && item.text` are truthy, else to `null`; then
`filter(Boolean)` (here fused into `filterMap`). -/
def normalizeKB (raw : List JVal) : List KBEntry :=
  raw.filterMap (fun item =>
    if truthy item && truthyO (getField item "q") && truthyO (getField item "a") then
      some ⟨jsString ((getField item "q").getD .null),
            jsString ((getField item "a").getD .null)⟩
    else if truthy item && truthyO (getField item "title") && truthyO (getField item "text") then
      some ⟨jsString ((getField item "title").getD .null),
            jsString ((getField item "text").getD .null)⟩
    else none)

/-- The JSON object a normalized entry denotes, used to feed
`normalizeKB`'s output back into `normalizeKB`. -/
def embedEntry (e : KBEntry) : JVal :=
  .obj [("q", .str e.q), ("a", .str e.a)]

/-! ## Tenant registry and origin checks -/

/-- A registry value `{ name, origins }`; `origins` is optional because
the code guards every use with `cfg.origins || []`. -/
structure TenantCfg where
  name : String
  origins : Option (List String)
deriving DecidableEq, Repr

/-- The `REGISTRY` map: slug → config, JSON object keys being distinct. -/
abbrev Registry := List (String × TenantCfg)

/-- Lookup `REGISTRY[client]` (`none` = absent key = falsy `undefined`). -/
def regLookup (reg : Registry) (client : String) : Option TenantCfg :=
  List.lookup client reg

/-- The expression `cfg.origins || []` applied to the looked-up tenant: the origin list
the guard consults for a slug, empty when the tenant is unknown. -/
def originsOf (reg : Registry) (client : String) : List String :=
  match regLookup reg client with
  | none => []
  | some cfg => cfg.origins.getD []

/-- Source `safeSlug(s)`: lowercase, then strip every character outside
`[a-z0-9-]`. -/
def safeSlug (s : String) : String :=
  String.mk ((jsLower s).toList.filter
    (fun c => ('a' ≤ c && c ≤ 'z') || c.isDigit || c = '-'))

/-- The `FALLBACK_ALLOWED` hotfix allowlist of src/index.js.  The server
variant in src/new-client.js has no such list (it uses `[]` below). -/
def FALLBACK_ALLOWED : List String :=
  ["https://prismatic-taffy-e96ac7.netlify.app",
   "https://nova-dynamics.no",
   "https://www.nova-dynamics.no",
   "http://localhost:8888"]

/-- Source `isAllowedOrigin(client, origin)`, parameterised by the fallback
allowlist `fb`: src/index.js first consults `FALLBACK_ALLOWED`;
the src/new-client.js variant has no fallback clause (`fb = []`). -/
def isAllowedOrigin (fb : List String) (reg : Registry) (client origin : String) : Bool :=
  if fb.contains origin then true
  else
    match regLookup reg client with
    | none => false
    | some cfg => (cfg.origins.getD []).contains origin

/-- Source `isKnownOrigin(origin)`: the origin appears in some tenant's origin
list (src/index.js additionally accepts the fallback allowlist). -/
def isKnownOrigin (fb : List String) (reg : Registry) (origin : String) : Bool :=
  if fb.contains origin then true
  else reg.any (fun p => (p.2.origins.getD []).contains origin)

/-- Outcome of the CORS middleware: a preflight is answered immediately
with 204, any other request proceeds to the route; `granted` records
whether `allowCORS` set the `Access-Control-Allow-*` headers. -/
inductive CorsOutcome where
  | preflightEnd (granted : Bool) : CorsOutcome
  | proceed (granted : Bool) : CorsOutcome
deriving DecidableEq, Repr

/-- Whether an outcome carries the cross-origin headers. -/
def CorsOutcome.granted : CorsOutcome → Bool
  | .preflightEnd g => g
  | .proceed g => g

/-- The dynamic CORS middleware of src/index.js: preflight is granted
when the origin is known anywhere; a normal request is granted the
headers when an origin is present and `isAllowedOrigin` holds, and
always proceeds (`next()`).  An absent origin header is the empty
string, as in the source (`req.headers.origin || ""`). -/
def corsIndex (reg : Registry) (isOptions : Bool) (origin rawClient : String) :
    CorsOutcome :=
  let client := safeSlug rawClient
  if isOptions then
    .preflightEnd (isKnownOrigin FALLBACK_ALLOWED reg origin)
  else
    .proceed (origin != "" && isAllowedOrigin FALLBACK_ALLOWED reg client origin)

/-- The CORS middleware of the src/new-client.js server variant: no
fallback allowlist, and a normal request additionally requires a
non-empty normalized client slug before headers are granted; all
non-preflight branches fall through to `next()`. -/
def corsNewClient (reg : Registry) (isOptions : Bool) (origin rawClient : String) :
    CorsOutcome :=
  let client := safeSlug rawClient
  if isOptions then
    .preflightEnd (isKnownOrigin [] reg origin)
  else if origin == "" then
    .proceed false
  else
    .proceed (client != "" && isAllowedOrigin [] reg client origin)

/-! ## KB store with 60 s cache (`getKB`) -/

/-- The `kbCache` map: client → `{ ts, kb }`, an association list whose lookup
returns the most recent `set` for a key (new entries are prepended). -/
abbrev KBCache := List (String × Int × List KBEntry)

/-- Source `getKB(client)`, with the clock and the backing source made
explicit: `source client` is the parsed content of
`clients/<client>/kb.json` (`readJSON` already folds any read or parse
failure into `[]`).  Returns the entries, the updated cache, and
whether the backing source was (re)fetched. -/
def getKB (source : String → List JVal) (cache : KBCache) (client : String)
    (now : Int) : List KBEntry × KBCache × Bool :=
  match List.lookup client cache with
  | some (ts, kb) =>
    if now - ts < 60000 then (kb, cache, false)
    else
      let kb := normalizeKB (source client)
      (kb, (client, now, kb) :: cache, true)
  | none =>
    let kb := normalizeKB (source client)
    (kb, (client, now, kb) :: cache, true)

/-! ## The `POST /chat` route -/

/-- Outcome of one `fetchJSON` attempt against the completion provider:
either the promise rejected (network error or timeout abort — nothing in
the route catches it), or a response arrived with an HTTP status and the
text reachable at `data?.choices?.[0]?.message?.content` (`none` when
that optional chain is `undefined`). -/
inductive FetchOutcome where
  | thrown : FetchOutcome
  | resp (status : Nat) (content : Option String) : FetchOutcome
deriving DecidableEq, Repr

/-- Fetch `Response.ok`: status in the inclusive range 200–299. -/
def respOk (status : Nat) : Bool := 200 ≤ status && status ≤ 299

/-- The JSON body the route answers with, plus its HTTP status. -/
structure ChatResponse where
  status : Nat
  reply : String
  unsure : Bool
  suggestions : Option (List String)
deriving DecidableEq, Repr

/-- Result of the route handler: a response, or an uncaught rejection
(the async handler's promise rejects and no response is sent). -/
inductive ChatResult where
  | ok (r : ChatResponse) : ChatResult
  | exn : ChatResult
deriving DecidableEq, Repr

/-- The slug `safeSlug(req.body?.client || "demo")`: a falsy or absent `client`
field falls back to `"demo"`. -/
def chatClientSlug (clientField : Option JVal) : String :=
  safeSlug (match clientField with
    | some v => if truthy v then jsString v else "demo"
    | none => "demo")

/-- Slicing `s.slice(0, n)`: the first `n` characters (see the header note). -/
def jsSlice (n : Nat) (s : String) : String := String.mk (s.toList.take n)

/-- The message `String(req.body?.message || "").slice(0, 2000)`. -/
def chatMessageVal (messageField : Option JVal) : String :=
  jsSlice 2000 (match messageField with
    | some v => if truthy v then jsString v else ""
    | none => "")

/-- Reply extraction `data?.choices?.[0]?.message?.content?.trim()`, with the fixed apology substituted for a missing or empty text. -/
def extractReply (content : Option String) : String :=
  match content with
  | some t => if t.trim == "" then "Beklager – jeg fikk ikke generert et svar." else t.trim
  | none => "Beklager – jeg fikk ikke generert et svar."

/-- What the route does with the final provider response: `!resp.ok`
yields the 502 apology; otherwise a 200 reply with `unsure: true` and
the first three raw KB questions as suggestions. -/
def finishResp (status : Nat) (content : Option String) (kb : List KBEntry) :
    ChatResponse :=
  if !respOk status then
    ⟨502, "Beklager – midlertidig problem med AI-svaret.", true, none⟩
  else
    ⟨200, extractReply content, true, some ((kb.take 3).map (fun x => x.q))⟩

/-- The remote-fallback tail of the route: missing key → 500; otherwise
the first attempt (`o1`), retried once (`o2`) when `!resp.ok ||
resp.status >= 500`; a thrown attempt propagates out of the handler.
The second component counts provider attempts actually issued. -/
def chatFallback (key : String) (o1 o2 : FetchOutcome) (kb : List KBEntry) :
    ChatResult × Nat :=
  if key == "" then
    (.ok ⟨500, "API-nøkkel mangler på serveren.", true, none⟩, 0)
  else
    match o1 with
    | .thrown => (.exn, 1)
    | .resp s c =>
      if !respOk s || 500 ≤ s then
        match o2 with
        | .thrown => (.exn, 2)
        | .resp s2 c2 => (.ok (finishResp s2 c2 kb), 2)
      else (.ok (finishResp s c kb), 1)

/-- The `POST /chat` handler.  `fb` selects the variant
(`FALLBACK_ALLOWED` for src/index.js, `[]` for src/new-client.js);
`kbOf client` is the value `getKB(client)` returns for this request;
`key` is `OPENAI_KEY`; `o1, o2` are the provider attempt outcomes.
The second component counts provider attempts. -/
def chat (fb : List String) (reg : Registry) (kbOf : String → List KBEntry)
    (key : String) (o1 o2 : FetchOutcome) (origin : String)
    (clientField messageField : Option JVal) : ChatResult × Nat :=
  let client := chatClientSlug clientField
  let message := chatMessageVal messageField
  match regLookup reg client with
  | none => (.ok ⟨400, "Unknown client.", true, none⟩, 0)
  | some _ =>
    if origin != "" && !isAllowedOrigin fb reg client origin then
      (.ok ⟨403, "Origin not allowed for this client.", true, none⟩, 0)
    else
      let kb := kbOf client
      match rankFAQ message kb with
      | [] => chatFallback key o1 o2 kb
      | top :: rest =>
        if 0 < top.score then
          (.ok ⟨200, top.a, false, some ((rest.take 3).map (fun x => x.q))⟩, 0)
        else chatFallback key o1 o2 kb

/-! ## The completion request payload (for the retry-identity property) -/

/-- The serialised request body sent to the provider.  `temperature` is
the literal `0.2`, kept as its serialised text. -/
structure Payload where
  model : String
  temperature : String
  messages : List (String × String)
deriving DecidableEq, Repr

/-- The `systemMsg` template literal, trimmed, with the client slug
interpolated after replacing every hyphen by a space (a global regex
replace in the source). -/
def systemMsg (client : String) : String :=
  ("\nYou are a concise, friendly customer-service assistant for "
    ++ String.replace client "-" " "
    ++ ".\nAnswer in the user's language (Norwegian or English). Prefer facts from the Knowledge Base below.\nIf the answer is not present, say you're not entirely sure and offer to collect name and email for follow-up.\n").trim

/-- The `context` template: every KB entry rendered as an indexed Q/A
pair, truncated with `.slice(0, 8000)`. -/
def contextBlock (kb : List KBEntry) : String :=
  jsSlice 8000 ("Knowledge Base:\n" ++ joinSep "\n\n"
    (kb.enum.map (fun p =>
      "[" ++ toString (p.1 + 1) ++ "] Q: " ++ p.2.q ++ "\nA: " ++ p.2.a)))

/-- The body of the first provider attempt, as written at its call site
(`context || "(empty KB)"` substitutes the placeholder). -/
def payloadFirst (model client message : String) (kb : List KBEntry) : Payload :=
  ⟨model, "0.2",
   [("system", systemMsg client),
    ("system", if contextBlock kb == "" then "(empty KB)" else contextBlock kb),
    ("user", message)]⟩

/-- The body of the retry attempt, duplicated verbatim at the second
call site in the source. -/
def payloadRetry (model client message : String) (kb : List KBEntry) : Payload :=
  ⟨model, "0.2",
   [("system", systemMsg client),
    ("system", if contextBlock kb == "" then "(empty KB)" else contextBlock kb),
    ("user", message)]⟩

/-! # Theorems -/

/-! ## Claim C3: the scoring formula -/

/-- A left fold that adds two per-element contributions is the sum of
those contributions over the list. -/
theorem foldl_add2 {α : Type} (f g : α → Nat) :
    ∀ (l : List α) (init : Nat),
      l.foldl (fun s t => s + f t + g t) init
        = init + (l.map (fun t => f t + g t)).sum
  | [], init => by simp
  | x :: xs, init => by
    have ih := foldl_add2 f g xs (init + f x + g x)
    simp only [List.foldl_cons, List.map_cons, List.sum_cons] at ih ⊢
    omega

/-- Claim C3, counterexample: `scoreEntry` iterates over the query's
token list without removing duplicates, so the duplicated query token
`"hours"` is counted twice (score 4), while the claimed set-membership
formula (`specScore`) yields 2. -/
theorem scoreEntry_counterexample :
    scoreEntry ⟨"hours", ""⟩ (tok "hours hours") = 4 ∧
    specScore ⟨"hours", ""⟩ (tok "hours hours") = 2 ∧
    scoreEntry ⟨"hours", ""⟩ (tok "hours hours")
      ≠ specScore ⟨"hours", ""⟩ (tok "hours hours") := by
  refine ⟨by decide, by decide, by decide⟩

/-- Claim C3, amended: the score is the sum, over the query token list
with multiplicity, of 2 per occurrence whose token appears among the
entry's question tokens plus 1 per occurrence whose token appears among
the entry's answer tokens; duplicates in the entry's token lists do not
multiply the contribution, but each occurrence of a duplicated query
token contributes again. -/
theorem scoreEntry_eq_sum (entry : KBEntry) (qTokens : List String) :
    scoreEntry entry qTokens
      = (qTokens.map (fun t =>
          (if t ∈ tok entry.q then 2 else 0)
            + (if t ∈ tok entry.a then 1 else 0))).sum := by
  have h := foldl_add2 (fun t => if (tok entry.q).contains t then 2 else 0)
    (fun t => if (tok entry.a).contains t then 1 else 0) qTokens 0
  simp only [scoreEntry, h, Nat.zero_add]
  congr 1
  apply List.map_congr_left
  intro t _
  by_cases hq : t ∈ tok entry.q <;> by_cases ha : t ∈ tok entry.a <;>
    simp [hq, ha, List.elem_iff]

/-! ## Claims C7 and C10: ranking is a stable descending sort -/

/-- Inserting an entry with `orderedInsert` passes only over strictly
higher scores, so the equal-score subsequence gains the new entry at its
front exactly when the scores match. -/
theorem filter_orderedInsert (x : RankedEntry) (s : Nat) :
    ∀ l : List RankedEntry,
      (List.orderedInsert rankLE x l).filter (fun e => e.score == s)
        = if x.score == s
          then x :: l.filter (fun e => e.score == s)
          else l.filter (fun e => e.score == s)
  | [] => by
    simp only [List.orderedInsert, List.filter]
    cases h : x.score == s <;> simp [h]
  | b :: l => by
    by_cases hr : rankLE x b
    · simp only [List.orderedInsert, if_pos hr, List.filter]
      cases hx : x.score == s <;> simp [hx]
    · have hlt : x.score < b.score := Nat.lt_of_not_le hr
      have ih := filter_orderedInsert x s l
      simp only [List.orderedInsert, if_neg hr, List.filter, ih]
      cases hx : x.score == s
      · simp [hx]
      · have hxs : x.score = s := eq_of_beq hx
        have hb : (b.score == s) = false := beq_false_of_ne (by omega)
        simp [hx, hb]

/-- The stable insertion sort preserves each equal-score subsequence. -/
theorem filter_insertionSort (s : Nat) :
    ∀ l : List RankedEntry,
      (List.insertionSort rankLE l).filter (fun e => e.score == s)
        = l.filter (fun e => e.score == s)
  | [] => rfl
  | x :: l => by
    have ih := filter_insertionSort s l
    simp only [List.insertionSort, filter_orderedInsert, ih, List.filter]
    cases hx : x.score == s <;> simp [hx]

/-- Claim C7: `rankFAQ` returns the scored entries in descending score
order, and for every score value the subsequence of entries carrying
that score equals the corresponding subsequence of the scored input, so
ties keep the KB's original relative order. -/
theorem rankFAQ_sorted_stable (question : String) (kb : List KBEntry) :
    (rankFAQ question kb).Sorted rankLE ∧
    ∀ s : Nat,
      (rankFAQ question kb).filter (fun e => e.score == s)
        = (scoreKB question kb).filter (fun e => e.score == s) :=
  ⟨List.sorted_insertionSort rankLE (scoreKB question kb),
   fun s => filter_insertionSort s (scoreKB question kb)⟩

/-- Claim C10: `rankFAQ` permutes the KB: the output has the KB's
length, and stripping the attached scores yields a permutation of the
input question/answer pairs — nothing is dropped, duplicated or
altered. -/
theorem rankFAQ_perm (question : String) (kb : List KBEntry) :
    (rankFAQ question kb).length = kb.length ∧
    List.Perm ((rankFAQ question kb).map (fun r => (r.q, r.a)))
      (kb.map (fun e => (e.q, e.a))) := by
  have hp := List.perm_insertionSort rankLE (scoreKB question kb)
  unfold rankFAQ
  constructor
  · rw [hp.length_eq]
    simp [scoreKB]
  · refine (hp.map (fun r => (r.q, r.a))).trans ?_
    simp [scoreKB, List.map_map]
    exact List.Perm.refl _

/-! ## Claim C6: KB normalization and idempotence -/

/-- Re-normalizing a list of already-normalized entries whose fields are
all non-empty reproduces the list: each embedded entry is a truthy
object whose `q` and `a` fields are truthy strings. -/
theorem normalizeKB_map_embedEntry :
    ∀ l : List KBEntry, (∀ e ∈ l, e.q ≠ "" ∧ e.a ≠ "") →
      normalizeKB (l.map embedEntry) = l
  | [], _ => rfl
  | e :: l, h => by
    have he := h e (List.mem_cons_self e l)
    have ih := normalizeKB_map_embedEntry l
      (fun x hx => h x (List.mem_cons_of_mem e hx))
    have hq : (e.q != "") = true := bne_iff_ne.mpr he.1
    have ha : (e.a != "") = true := bne_iff_ne.mpr he.2
    simp [normalizeKB, embedEntry, getField, truthyO, truthy, jsString,
      List.lookup, hq, ha] at ih ⊢
    exact ih

/-- Claim C6, counterexample: the raw record `{q: [], a: "x"}` has a
truthy `q` (an array) that stringifies to `""`, so one pass yields the
entry `{q: "", a: "x"}`, which the second pass drops as falsy:
normalization is not idempotent. -/
theorem normalizeKB_not_idempotent :
    normalizeKB ((normalizeKB
        [JVal.obj [("q", JVal.arr []), ("a", JVal.str "x")]]).map embedEntry)
      ≠ normalizeKB [JVal.obj [("q", JVal.arr []), ("a", JVal.str "x")]] := by
  decide

/-- Claim C6, amended: `normalizeKB` is idempotent on every raw input
whose normalized entries all have a non-empty question and answer; only
entries whose truthy raw field stringifies to the empty string (such as
`[]` or `[""]`) are dropped by a second pass. -/
theorem normalizeKB_idempotent (raw : List JVal)
    (h : ∀ e ∈ normalizeKB raw, e.q ≠ "" ∧ e.a ≠ "") :
    normalizeKB ((normalizeKB raw).map embedEntry) = normalizeKB raw :=
  normalizeKB_map_embedEntry (normalizeKB raw) h

/-- Claim C6, witness: a well-formed raw KB record round-trips. -/
theorem normalizeKB_idempotent_witness :
    normalizeKB ((normalizeKB
        [JVal.obj [("q", JVal.str "Opening hours"), ("a", JVal.str "Mon-Fri 09-17")]]).map embedEntry)
      = normalizeKB
        [JVal.obj [("q", JVal.str "Opening hours"), ("a", JVal.str "Mon-Fri 09-17")]] :=
  normalizeKB_idempotent _ (by decide)

/-! ## Claim C1: the access guard -/

/-- Helper: `isAllowedOrigin` grants exactly the fallback allowlist united with
the named tenant's origin list. -/
theorem isAllowedOrigin_eq (fb : List String) (reg : Registry)
    (client origin : String) :
    isAllowedOrigin fb reg client origin
      = (fb.contains origin || (originsOf reg client).contains origin) := by
  unfold isAllowedOrigin originsOf
  cases regLookup reg client <;> cases h : fb.contains origin <;> simp [h]

/-- Helper: `isKnownOrigin` holds exactly when the origin is in the fallback
allowlist or listed by some registered tenant. -/
theorem isKnownOrigin_iff (fb : List String) (reg : Registry) (origin : String) :
    isKnownOrigin fb reg origin = true
      ↔ origin ∈ fb ∨ ∃ p ∈ reg, origin ∈ p.2.origins.getD [] := by
  unfold isKnownOrigin
  by_cases h : origin ∈ fb
  · simp [List.elem_iff.mpr h, h]
  · have hc : fb.contains origin = false := by
      cases hc : fb.contains origin
      · rfl
      · exact absurd (List.elem_iff.mp hc) h
    simp [hc, h, List.any_eq_true, List.elem_iff]

/-- Claim C1, counterexample: with a registry whose only tenant `demo`
allows no origin at all, the src/index.js guard still grants the
cross-origin headers to `https://nova-dynamics.no` — it is in the
`FALLBACK_ALLOWED` hotfix allowlist — on a normal request, and grants
the preflight as well, even though no tenant registers that origin. -/
theorem corsGuard_counterexample :
    ((corsIndex [("demo", ⟨"demo", some []⟩)] false
        "https://nova-dynamics.no" "demo").granted = true)
    ∧ ¬ ("https://nova-dynamics.no"
          ∈ originsOf [("demo", ⟨"demo", some []⟩)] "demo")
    ∧ ((corsIndex [("demo", ⟨"demo", some []⟩)] true
        "https://nova-dynamics.no" "demo").granted = true) := by
  refine ⟨by decide, by decide, by decide⟩

/-- Claim C1, amended: both guard variants always pass non-preflight
requests on to the route, and a request with no origin header proceeds
ungated.  Headers are granted on a non-preflight request iff an origin
is present and it is in the named tenant's allowed origins — or, in the
src/index.js variant, in the static `FALLBACK_ALLOWED` allowlist (the
src/new-client.js variant instead also requires a non-empty normalized
slug).  Preflight is granted iff the origin is registered under some
tenant, or (src/index.js only) is in the fallback allowlist. -/
theorem corsGuard_characterization (reg : Registry) (origin rawClient : String) :
    ((corsIndex reg false origin rawClient).granted = true ↔
      origin ≠ "" ∧ (origin ∈ FALLBACK_ALLOWED
        ∨ origin ∈ originsOf reg (safeSlug rawClient)))
    ∧ (∃ g, corsIndex reg false origin rawClient = .proceed g)
    ∧ (corsIndex reg false "" rawClient = .proceed false)
    ∧ ((corsNewClient reg false origin rawClient).granted = true ↔
      origin ≠ "" ∧ safeSlug rawClient ≠ ""
        ∧ origin ∈ originsOf reg (safeSlug rawClient))
    ∧ (∃ g, corsNewClient reg false origin rawClient = .proceed g)
    ∧ (corsNewClient reg false "" rawClient = .proceed false)
    ∧ ((corsIndex reg true origin rawClient).granted = true ↔
      origin ∈ FALLBACK_ALLOWED ∨ ∃ p ∈ reg, origin ∈ p.2.origins.getD [])
    ∧ ((corsNewClient reg true origin rawClient).granted = true ↔
      ∃ p ∈ reg, origin ∈ p.2.origins.getD []) := by
  refine ⟨?_, ⟨_, rfl⟩, rfl, ?_, ?_, ?_, ?_, ?_⟩
  · show (origin != "" && isAllowedOrigin FALLBACK_ALLOWED reg (safeSlug rawClient) origin) = true ↔ _
    simp [isAllowedOrigin_eq, Bool.and_eq_true, Bool.or_eq_true,
      bne_iff_ne, List.elem_iff]
  · unfold corsNewClient
    by_cases ho : origin = ""
    · simp [ho, CorsOutcome.granted]
    · have hb : (origin == "") = false := beq_false_of_ne ho
      simp [hb, ho, CorsOutcome.granted, isAllowedOrigin_eq, bne_iff_ne,
        List.elem_iff, and_assoc]
  · by_cases ho : origin = ""
    · exact ⟨false, by simp [corsNewClient, ho]⟩
    · exact ⟨safeSlug rawClient != ""
          && isAllowedOrigin [] reg (safeSlug rawClient) origin,
        by simp [corsNewClient, beq_false_of_ne ho]⟩
  · unfold corsNewClient
    simp [CorsOutcome.granted]
  · show isKnownOrigin FALLBACK_ALLOWED reg origin = true ↔ _
    rw [isKnownOrigin_iff]
  · show isKnownOrigin [] reg origin = true ↔ _
    rw [isKnownOrigin_iff]
    simp

/-! ## Claims C2, C4, C8, C9: the chat route -/

/-- Claim C2: at the failing inputs.  First conjunct: a first attempt
answered with HTTP 400 — a non-5xx client error the claim says is never
retried — is retried anyway, because the source's condition
`!resp.ok || resp.status >= 500` holds for every non-2xx status (two
attempts are issued).  Second conjunct: a first attempt that throws (a
network error or timeout abort) is never retried — the rejection
propagates out of the uncaught `await`, so only one attempt is issued
and no response is sent.  Third conjunct: the two call sites do build
identical payloads, as the claim states. -/
theorem chat_retry_bug :
    chat [] [("demo", ⟨"demo", some []⟩)] (fun _ => []) "k"
        (.resp 400 none) (.resp 400 none) "" none none
      = (.ok ⟨502, "Beklager – midlertidig problem med AI-svaret.", true, none⟩, 2)
    ∧ chat [] [("demo", ⟨"demo", some []⟩)] (fun _ => []) "k"
        .thrown (.resp 200 (some "hello")) "" none none
      = (.exn, 1)
    ∧ ∀ (model client message : String) (kb : List KBEntry),
        payloadFirst model client message kb = payloadRetry model client message kb := by
  refine ⟨by decide, by decide, fun _ _ _ _ => rfl⟩

/-- Claim C4: for an authorized request whose top-ranked entry scores
above zero, the route replies with that entry's answer verbatim,
`unsure: false`, the questions of the next up-to-three ranked entries as
suggestions, and issues no remote attempt. -/
theorem chat_local_answer (fb : List String) (reg : Registry)
    (kbOf : String → List KBEntry) (key : String) (o1 o2 : FetchOutcome)
    (origin : String) (clientField messageField : Option JVal)
    (cfg : TenantCfg) (top : RankedEntry) (rest : List RankedEntry)
    (hreg : regLookup reg (chatClientSlug clientField) = some cfg)
    (horig : origin = "" ∨
      isAllowedOrigin fb reg (chatClientSlug clientField) origin = true)
    (hrank : rankFAQ (chatMessageVal messageField)
        (kbOf (chatClientSlug clientField)) = top :: rest)
    (hscore : 0 < top.score) :
    chat fb reg kbOf key o1 o2 origin clientField messageField
      = (.ok ⟨200, top.a, false, some ((rest.take 3).map (fun x => x.q))⟩, 0) := by
  have hcond : (origin != ""
      && !isAllowedOrigin fb reg (chatClientSlug clientField) origin) = false := by
    rcases horig with ho | ha
    · simp [ho]
    · simp [ha]
  simp only [chat, hreg, hcond, Bool.false_eq_true, if_false, hrank,
    if_pos hscore]

/-- Claim C4, witness: a single-entry KB hit on the query
`what are your opening hours`. -/
theorem chat_local_answer_witness :
    chat [] [("demo", ⟨"demo", some ["https://a.example"]⟩)]
        (fun _ => [⟨"Opening hours", "Mon-Fri 09-17"⟩]) "" .thrown .thrown
        "" none (some (.str "what are your opening hours"))
      = (.ok ⟨200, "Mon-Fri 09-17", false, some []⟩, 0) :=
  chat_local_answer [] [("demo", ⟨"demo", some ["https://a.example"]⟩)]
    (fun _ => [⟨"Opening hours", "Mon-Fri 09-17"⟩]) "" .thrown .thrown
    "" none (some (.str "what are your opening hours"))
    ⟨"demo", some ["https://a.example"]⟩ ⟨"Opening hours", "Mon-Fri 09-17", 4⟩ []
    (by decide) (Or.inl rfl) (by decide) (by decide)

/-- Claim C8, counterexample: with the credential absent (`key = ""`),
a request whose KB produces a hit still succeeds with HTTP 200 — the
missing-key check sits after the local-answer branch, so not every
request fails with a 500-equivalent. -/
theorem chat_missing_key_counterexample :
    chat [] [("demo", ⟨"demo", some []⟩)]
        (fun _ => [⟨"Opening hours", "Mon-Fri 09-17"⟩]) "" .thrown .thrown
        "" none (some (.str "opening hours"))
      = (.ok ⟨200, "Mon-Fri 09-17", false, some []⟩, 0) := by
  decide

/-- Claim C8, amended: a request that reaches the remote-fallback path
(authorized tenant, no KB entry scoring above zero) fails per-request
with HTTP 500 when the credential is absent, and no remote attempt is
issued; requests resolved locally succeed regardless (counterexample
theorem), so the service keeps serving without the credential. -/
theorem chat_missing_key_500 (fb : List String) (reg : Registry)
    (kbOf : String → List KBEntry) (o1 o2 : FetchOutcome) (origin : String)
    (clientField messageField : Option JVal) (cfg : TenantCfg)
    (hreg : regLookup reg (chatClientSlug clientField) = some cfg)
    (horig : origin = "" ∨
      isAllowedOrigin fb reg (chatClientSlug clientField) origin = true)
    (hnohit : ∀ top rest, rankFAQ (chatMessageVal messageField)
        (kbOf (chatClientSlug clientField)) = top :: rest → top.score = 0) :
    chat fb reg kbOf "" o1 o2 origin clientField messageField
      = (.ok ⟨500, "API-nøkkel mangler på serveren.", true, none⟩, 0) := by
  have hcond : (origin != ""
      && !isAllowedOrigin fb reg (chatClientSlug clientField) origin) = false := by
    rcases horig with ho | ha
    · simp [ho]
    · simp [ha]
  cases hr : rankFAQ (chatMessageVal messageField)
      (kbOf (chatClientSlug clientField)) with
  | nil =>
    simp [chat, hreg, hcond, hr, chatFallback]
  | cons top rest =>
    have h0 := hnohit top rest hr
    simp [chat, hreg, hcond, hr, h0, chatFallback]

/-- Claim C8, witness: empty KB, credential absent, request 500s with
no remote attempt. -/
theorem chat_missing_key_500_witness :
    chat [] [("demo", ⟨"demo", some []⟩)] (fun _ => []) ""
        .thrown .thrown "" none none
      = (.ok ⟨500, "API-nøkkel mangler på serveren.", true, none⟩, 0) :=
  chat_missing_key_500 [] [("demo", ⟨"demo", some []⟩)] (fun _ => [])
    .thrown .thrown "" none none ⟨"demo", some []⟩
    (by decide) (Or.inl rfl)
    (fun top rest h => List.noConfusion h)

/-- Claim C9: a missing or empty `client` field is not rejected — the
route behaves exactly as if the slug `demo` had been supplied. -/
theorem chat_client_default (fb : List String) (reg : Registry)
    (kbOf : String → List KBEntry) (key : String) (o1 o2 : FetchOutcome)
    (origin : String) (messageField : Option JVal) :
    chat fb reg kbOf key o1 o2 origin none messageField
      = chat fb reg kbOf key o1 o2 origin (some (.str "demo")) messageField
    ∧ chat fb reg kbOf key o1 o2 origin (some (.str "")) messageField
      = chat fb reg kbOf key o1 o2 origin (some (.str "demo")) messageField := by
  have h1 : chatClientSlug none = chatClientSlug (some (.str "demo")) := by decide
  have h2 : chatClientSlug (some (.str ""))
      = chatClientSlug (some (.str "demo")) := by decide
  constructor
  · simp only [chat, h1]
  · simp only [chat, h2]

/-! ## Claim C5: the 60-second KB cache -/

/-- Claim C5: after a call that fetched the backing source, a second
`get` for the same tenant less than 60 seconds later returns the same
entry sequence from the cache, leaves the cache unchanged, and does not
refetch the backing source. -/
theorem getKB_cached (source : String → List JVal) (cache : KBCache)
    (client : String) (t0 t1 : Int) (kb1 : List KBEntry) (c1 : KBCache)
    (h1 : getKB source cache client t0 = (kb1, c1, true))
    (h2 : t1 - t0 < 60000) :
    getKB source c1 client t1 = (kb1, c1, false) := by
  have hc : c1 = (client, t0, kb1) :: cache := by
    unfold getKB at h1
    split at h1
    · split at h1
      · simp only [Prod.mk.injEq] at h1
        exact absurd h1.2.2 (by simp)
      · simp only [Prod.mk.injEq] at h1
        rw [← h1.2.1, ← h1.1]
    · simp only [Prod.mk.injEq] at h1
      rw [← h1.2.1, ← h1.1]
  rw [hc]
  unfold getKB
  simp only [List.lookup, BEq.refl, if_pos h2]

/-- Claim C5, witness: a fetch at time 0 followed by a `get` at time 1
serves the cached (empty) KB without refetching. -/
theorem getKB_cached_witness :
    getKB (fun _ => []) [("demo", (0 : Int), ([] : List KBEntry))] "demo" 1
      = ([], [("demo", (0 : Int), ([] : List KBEntry))], false) :=
  getKB_cached (fun _ => []) [] "demo" 0 1 [] [("demo", 0, [])] rfl (by decide)

end NovaBot
